import Mathlib

/-!
# Verification of the input-toggle state-resolution engine

Shallow embedding of `src/input-toggle.js` (the `InputToggle` object).
Elements are modelled as an attribute association list plus a class list;
jQuery primitives used by the source (`attr`, `data` with its string
conversion, `addClass`/`removeClass`, `filter` on arrays, namespaced
`off`/`on`, `$.extend`) are modelled explicitly where the source calls
them.  All machine values the engine compares are strings; the jQuery
`data` conversion is captured by the `JSVal` type.
-/

namespace InputToggle

/-- The seven recognized marker-attribute names (`InputToggle.attributes`
in the source, lines 90-98). -/
structure AttrNames where
  toggled : String
  activeValue : String
  inactiveValue : String
  activeClass : String
  inactiveClass : String
  activeAttribute : String
  inactiveAttribute : String
deriving DecidableEq, Repr

/-- The default marker names from the source (lines 90-98). -/
def defaultAttributes : AttrNames :=
  { toggled := "data-input-toggle"
    activeValue := "data-input-toggle-active-value"
    inactiveValue := "data-input-toggle-inactive-value"
    activeClass := "data-input-toggle-active-class"
    inactiveClass := "data-input-toggle-inactive-class"
    activeAttribute := "data-input-toggle-active-attribute"
    inactiveAttribute := "data-input-toggle-inactive-attribute" }

/-- A DOM element as the engine sees it: its attribute map (an association
list, names assumed unique as in a DOM element) and its class list. -/
structure Toggle where
  attrs : List (String × String)
  classes : List String
deriving DecidableEq, Repr

/-- Association-list lookup used to model reading an element attribute. -/
def lookupAttr : List (String × String) → String → Option String
  | [], _ => none
  | p :: ps, n => if p.1 == n then some p.2 else lookupAttr ps n

/-- Models the one-argument jQuery attr getter: the element's attribute
value, or none when the attribute is absent. -/
def getAttr (t : Toggle) (n : String) : Option String :=
  lookupAttr t.attrs n

/-- Models the two-argument jQuery attr setter on the association list:
replace the existing entry for the name, else append a new one. -/
def setPair (l : List (String × String)) (n v : String) : List (String × String) :=
  match l with
  | [] => [(n, v)]
  | p :: ps => if p.1 == n then (n, v) :: ps else p :: setPair ps n v

/-- jQuery attr setter lifted to elements. -/
def setAttr (t : Toggle) (n v : String) : Toggle :=
  { t with attrs := setPair t.attrs n v }

/-- jQuery removeAttr: drop every entry with the given name. -/
def removeAttr (t : Toggle) (n : String) : Toggle :=
  { t with attrs := t.attrs.filter (fun p => !(p.1 == n)) }

/-! ## jQuery data conversion

`getAttributeValue` (source lines 225-237) reads `data-` prefixed markers
through jQuery's `.data()`, which converts the raw attribute string:
"true"/"false" to booleans, "null" to null, a string that is its own
canonical number form to a number, and a bracketed string to JSON (falling
back to the raw string when the parse fails).  `JSVal` is the value space
of that conversion as this component can observe it. -/

/-- Result of jQuery's data-attribute string conversion.  A missing
attribute is reported by the source as the boolean false, so absence is
`bool false` here as well. -/
inductive JSVal where
  | bool (b : Bool)
  | nullv
  | num (s : String)
  | str (s : String)
  | arr (l : List String)
deriving DecidableEq, Repr

/-- JavaScript truthiness of a `JSVal`.  A number is falsy exactly when it
is 0 or NaN; among canonical number strings those are "0" and "NaN". -/
def jsTruthy : JSVal → Bool
  | .bool b => b
  | .nullv => false
  | .num s => !(s == "0" || s == "NaN")
  | .str s => !(s == "")
  | .arr _ => true

/-- JavaScript `toString` on a non-array `JSVal`; none models the
TypeError raised by `null.toString()` (and is unused for arrays, which
the source routes past `toString`). -/
def jsToString : JSVal → Option String
  | .bool b => some (if b then "true" else "false")
  | .nullv => none
  | .num s => some s
  | .str s => some s
  | .arr _ => none

/-- jQuery converts a data string to a number only when the string equals
the canonical printed form of that number.  Modelled here for integer
literals and NaN, the only numeric forms this component can meet; note
"" , "-0" and zero-padded strings are not canonical and stay strings. -/
def isCanonicalNumber (s : String) : Bool :=
  s == "NaN" ||
  (match s.toList with
   | [] => false
   | '-' :: rest =>
       !rest.isEmpty && rest.all Char.isDigit && !(rest.head? == some '0')
   | c :: rest =>
       (c :: rest).all Char.isDigit && ((c :: rest) == ['0'] || !(c == '0')))

/-- jQuery's rbrace test: the raw string starts with a bracket or brace
and ends with the matching one, gating the JSON-parse attempt. -/
def rbraceTest (s : String) : Bool :=
  match s.toList with
  | '[' :: _ => s.toList.getLast? == some ']'
  | '{' :: _ => s.toList.getLast? == some '}'
  | _ => false

/-- Skip spaces, the only JSON whitespace this model handles. -/
def skipSpaces : List Char → List Char
  | ' ' :: cs => skipSpaces cs
  | cs => cs

/-- Read a JSON string body after the opening quote; escapes are treated
as a parse failure (the source's documented format never uses them). -/
def jsonStringAux : List Char → List Char → Option (String × List Char)
  | [], _ => none
  | '"' :: rest, acc => some (String.mk acc.reverse, rest)
  | '\\' :: _, _ => none
  | c :: rest, acc => jsonStringAux rest (c :: acc)

/-- Read one quoted JSON string. -/
def takeJsonString (cs : List Char) : Option (String × List Char) :=
  match cs with
  | '"' :: rest => jsonStringAux rest []
  | _ => none

/-- Read the remaining comma-separated quoted strings of a JSON array. -/
def jsonListAux : Nat → List Char → List String → Option (List String)
  | 0, _, _ => none
  | fuel + 1, cs, acc =>
      match takeJsonString (skipSpaces cs) with
      | none => none
      | some (s, rest) =>
          match skipSpaces rest with
          | ',' :: more => jsonListAux fuel more (acc ++ [s])
          | ']' :: tail => if skipSpaces tail == [] then some (acc ++ [s]) else none
          | _ => none

/-- Parse a JSON array of plain strings, the only structured form the
component documents; anything else is a parse failure, which the source
catches and falls back from (spec: malformed JSON falls back to the plain
scalar string). -/
def parseJsonStringArray (s : String) : Option (List String) :=
  match skipSpaces s.toList with
  | '[' :: rest =>
      match skipSpaces rest with
      | ']' :: tail => if skipSpaces tail == [] then some [] else none
      | cs => jsonListAux (cs.length + 1) cs []
  | _ => none

/-- jQuery's `getData` string conversion, applied when a `data-` marker is
read (the `$toggle.data(...)` call in `getAttributeValue`). -/
def getData (raw : String) : JSVal :=
  if raw == "true" then .bool true
  else if raw == "false" then .bool false
  else if raw == "null" then .nullv
  else if isCanonicalNumber raw then .num raw
  else if rbraceTest raw then
    match parseJsonStringArray raw with
    | some l => .arr l
    | none => .str raw
  else .str raw

/-- The source's test `attributeName.indexOf('data-') === 0`, written on
the character list. -/
def isDataName (s : String) : Bool :=
  s.toList.take 5 == ['d', 'a', 't', 'a', '-']

/-- `getAttributeValue` (source lines 225-237): absent attribute yields
the boolean false; a `data-` prefixed marker goes through the jQuery data
conversion; any other marker name is read verbatim as a string. -/
def getAttributeValue (t : Toggle) (attributeName : String) : JSVal :=
  match getAttr t attributeName with
  | none => .bool false
  | some raw =>
      if isDataName attributeName then getData raw
      else .str raw

/-! ## ValueComparator -/

/-- Models jQuery `$(elems).filter(keep)` on arrays of strings: keep the
members of `elems` that occur in `keep`. -/
def jqFilterKeep (elems keep : List String) : List String :=
  elems.filter (fun e => keep.contains e)

/-- `hasInputValues` (source lines 238-250).  A non-array criterion is
normalized to the singleton of its `toString` (none models the TypeError
`null.toString()` would raise); then the jQuery array filter decides
whether the criterion set meets the input values. -/
def hasInputValues (inputValues : List String) (testValues : JSVal) : Option Bool :=
  match testValues with
  | .arr l => some (decide ((jqFilterKeep l inputValues).length > 0))
  | v =>
      match jsToString v with
      | some s => some (decide ((jqFilterKeep [s] inputValues).length > 0))
      | none => none

/-! ## ActivationResolver -/

/-- `determineActive` (source lines 251-264).  The source tests the
decoded marker values for JavaScript truthiness; when neither passes it
falls off the end, returning undefined, modelled as none. -/
def determineActive (t : Toggle) (names : AttrNames) (inputValues : List String) :
    Option Bool :=
  let activeValues := getAttributeValue t names.activeValue
  let inactiveValues := getAttributeValue t names.inactiveValue
  if jsTruthy activeValues then
    hasInputValues inputValues activeValues
  else if jsTruthy inactiveValues then
    (hasInputValues inputValues inactiveValues).map (fun b => !b)
  else
    none

/-- The criterion set denoted by a decoded marker value, following the
spec wording: an array is the set itself, a scalar is the singleton of
its string form, and null denotes nothing. -/
def critList : JSVal → List String
  | .arr l => l
  | .bool b => [if b then "true" else "false"]
  | .num s => [s]
  | .str s => [s]
  | .nullv => []

/-! ## InputValueCollector -/

/-- One form input as `getInputValues` observes it through jQuery: a
checkbox or radio (its value and checked state), a multi-valued input
(its currently selected values, the array `val()` returns), or any other
input (its single current value). -/
inductive Input where
  | check (value : String) (checked : Bool)
  | multi (selected : List String)
  | other (value : String)
deriving DecidableEq, Repr

/-- `getInputValues` (source lines 200-224): walk the inputs sharing the
name in document order, pushing a checkbox/radio value only when checked,
concatenating array values, and pushing any other value verbatim. -/
def getInputValues (inputs : List Input) : List String :=
  inputs.foldl
    (fun acc i =>
      match i with
      | .check v c => if c then acc ++ [v] else acc
      | .multi sel => acc ++ sel
      | .other v => acc ++ [v])
    []

/-! ## Validation and grouping -/

/-- The repeated test of `validateToggle`: the attribute is present and
its raw value is non-empty. -/
def nonEmptyAttr (t : Toggle) (n : String) : Bool :=
  match getAttr t n with
  | some v => v.length > 0
  | none => false

/-- `validateToggle` (source lines 158-189): a non-empty active-value or
inactive-value marker, and at least one non-empty class or attribute
directive. -/
def validateToggle (t : Toggle) (names : AttrNames) : Bool :=
  (nonEmptyAttr t names.activeValue || nonEmptyAttr t names.inactiveValue) &&
  (nonEmptyAttr t names.activeClass || nonEmptyAttr t names.inactiveClass ||
   nonEmptyAttr t names.activeAttribute || nonEmptyAttr t names.inactiveAttribute)

/-- Append a toggle to the group of its input name, creating the group on
first use (the `toggles[inputName]` updates in `init`, lines 121-134). -/
def addToGroup (groups : List (String × List Toggle)) (name : String) (t : Toggle) :
    List (String × List Toggle) :=
  if groups.any (fun g => g.1 == name) then
    groups.map (fun g => if g.1 == name then (g.1, g.2 ++ [t]) else g)
  else
    groups ++ [(name, [t])]

/-- The group-building pass of `init` (source lines 121-134): elements
bearing the toggled marker are validated and the valid ones with a
non-empty input name are grouped by that name; everything else is
silently skipped. -/
def buildToggles (elems : List Toggle) (names : AttrNames) :
    List (String × List Toggle) :=
  elems.foldl
    (fun gs e =>
      if validateToggle e names then
        match getAttr e names.toggled with
        | some n => if n.length > 0 then addToGroup gs n e else gs
        | none => gs
      else gs)
    []

/-! ## MutationPlanner -/

/-- Models the JavaScript single-character string split used by
`parseToggleAttribute` (`raw.split(sep)`): every occurrence of the
separator splits, and the empty string yields one empty piece. -/
def splitCharAux (sep : Char) : List Char → List (List Char)
  | [] => [[]]
  | c :: cs =>
      match splitCharAux sep cs with
      | [] => [[]]
      | r :: rs => if c == sep then [] :: r :: rs else (c :: r) :: rs

/-- JavaScript `String.prototype.split` with a one-character separator. -/
def jsSplit (s : String) (sep : Char) : List String :=
  (splitCharAux sep s.toList).map (fun l => String.mk l)

/-- The parsed attribute directive returned by `parseToggleAttribute`:
the source represents both pieces as strings, with the empty string
standing for an absent name or value.  (The source calls the first field
'attribute'; that word is reserved here, hence `attrName`.) -/
structure ToggleAttr where
  attrName : String
  value : String
deriving DecidableEq, Repr

/-- `parseToggleAttribute` (source lines 289-309).  With the marker
absent both fields stay empty; otherwise the raw string is split on
every equals sign and, when at least one is present, the first two
segments become the name and value. -/
def parseToggleAttribute (t : Toggle) (marker : String) : ToggleAttr :=
  match getAttr t marker with
  | none => { attrName := "", value := "" }
  | some raw =>
      let splitEqual := jsSplit raw '='
      if splitEqual.length > 1 then
        { attrName := splitEqual.headD "", value := splitEqual.getD 1 "" }
      else
        { attrName := raw, value := "" }

/-- jQuery splits a class-attribute string on whitespace; spaces are the
only whitespace this model handles. -/
def splitClasses (s : String) : List String :=
  (jsSplit s ' ').filter (fun c => !(c == ""))

/-- jQuery addClass: append each name not already present. -/
def addClasses (cs : List String) (names : List String) : List String :=
  names.foldl (fun acc n => if acc.contains n then acc else acc ++ [n]) cs

/-- jQuery removeClass: drop every occurrence of each name. -/
def removeClasses (cs : List String) (names : List String) : List String :=
  cs.filter (fun c => !(names.contains c))

/-- `toggleClass` (source lines 265-288).  Absent class markers read as
the empty string; a JavaScript-truthy `isActive` (here: some true, the
only truthy value `determineActive` produces) adds the active classes
and removes the inactive ones, any other value (false or undefined) does
the reverse. -/
def toggleClass (t : Toggle) (names : AttrNames) (isActive : Option Bool) : Toggle :=
  let activeClass := (getAttr t names.activeClass).getD ""
  let inactiveClass := (getAttr t names.inactiveClass).getD ""
  if isActive == some true then
    let t1 :=
      if activeClass.length > 0 then
        { t with classes := addClasses t.classes (splitClasses activeClass) }
      else t
    if inactiveClass.length > 0 then
      { t1 with classes := removeClasses t1.classes (splitClasses inactiveClass) }
    else t1
  else
    let t1 :=
      if activeClass.length > 0 then
        { t with classes := removeClasses t.classes (splitClasses activeClass) }
      else t
    if inactiveClass.length > 0 then
      { t1 with classes := addClasses t1.classes (splitClasses inactiveClass) }
    else t1

/-- `toggleAttribute` (source lines 310-341).  Both directives are parsed
up front.  NOTE (faithful to the source): in the presence-only branches
the source calls the one-argument jQuery attr, which is a getter, so no
attribute is written there; the element is returned unchanged. -/
def toggleAttribute (t : Toggle) (names : AttrNames) (isActive : Option Bool) : Toggle :=
  let activeAttribute := parseToggleAttribute t names.activeAttribute
  let inactiveAttribute := parseToggleAttribute t names.inactiveAttribute
  if isActive == some true then
    let t1 :=
      if activeAttribute.attrName.length > 0 then
        if activeAttribute.value.length > 0 then
          setAttr t activeAttribute.attrName activeAttribute.value
        else t
      else t
    if inactiveAttribute.attrName.length > 0 then
      removeAttr t1 inactiveAttribute.attrName
    else t1
  else
    let t1 :=
      if activeAttribute.attrName.length > 0 then
        removeAttr t activeAttribute.attrName
      else t
    if inactiveAttribute.attrName.length > 0 then
      if inactiveAttribute.value.length > 0 then
        setAttr t1 inactiveAttribute.attrName inactiveAttribute.value
      else t1
    else t1

/-- The per-element body of `update` (source lines 190-199): resolve the
active state once, then apply the class toggle followed by the attribute
toggle with that same state. -/
def updateOne (t : Toggle) (names : AttrNames) (inputValues : List String) : Toggle :=
  let isActive := determineActive t names inputValues
  toggleAttribute (toggleClass t names isActive) names isActive

/-- `update` (source lines 190-199) over a group of toggles. -/
def update (toggles : List Toggle) (names : AttrNames) (inputValues : List String) :
    List Toggle :=
  toggles.map (fun t => updateOne t names inputValues)

/-- Applying the mutation plan for a given resolved state: the class
toggle then the attribute toggle, as `update` sequences them. -/
def applyPlan (t : Toggle) (names : AttrNames) (isActive : Option Bool) : Toggle :=
  toggleAttribute (toggleClass t names isActive) names isActive

/-! ## Event binding (`init`, source lines 136-151) -/

/-- One registered event listener: its event type, namespace and
handler. -/
structure Binding (α : Type) where
  event : String
  ns : String
  handler : α
deriving DecidableEq, Repr

/-- jQuery namespaced off: remove every listener with the given event
type and namespace, leaving all others. -/
def offNamespaced {α : Type} (bs : List (Binding α)) (event ns : String) :
    List (Binding α) :=
  bs.filter (fun b => !(b.event == event && b.ns == ns))

/-- jQuery on: append a listener. -/
def onNamespaced {α : Type} (bs : List (Binding α)) (b : Binding α) :
    List (Binding α) :=
  bs ++ [b]

/-- The rebinding step `init` performs per input (source lines 142-145):
off with the change event in the InputToggle namespace, then on with the
fresh handler in that namespace. -/
def bindChange {α : Type} (bs : List (Binding α)) (h : α) : List (Binding α) :=
  onNamespaced (offNamespaced bs "change" "InputToggle")
    { event := "change", ns := "InputToggle", handler := h }

/-! ## Marker-name overrides (`init`, source lines 114-119) -/

/-- The role of each of the seven marker attributes, used to speak about
an arbitrary field of `AttrNames`. -/
inductive MarkerRole where
  | toggled | activeValue | inactiveValue | activeClass | inactiveClass
  | activeAttribute | inactiveAttribute
deriving DecidableEq, Repr

/-- Field projection of `AttrNames` by role. -/
def AttrNames.get (a : AttrNames) : MarkerRole → String
  | .toggled => a.toggled
  | .activeValue => a.activeValue
  | .inactiveValue => a.inactiveValue
  | .activeClass => a.activeClass
  | .inactiveClass => a.inactiveClass
  | .activeAttribute => a.activeAttribute
  | .inactiveAttribute => a.inactiveAttribute

/-- An options.attributes object: any subset of the seven marker names
may be supplied. -/
structure AttrOverrides where
  toggled : Option String := none
  activeValue : Option String := none
  inactiveValue : Option String := none
  activeClass : Option String := none
  inactiveClass : Option String := none
  activeAttribute : Option String := none
  inactiveAttribute : Option String := none
deriving DecidableEq, Repr

/-- Field projection of `AttrOverrides` by role. -/
def AttrOverrides.get (o : AttrOverrides) : MarkerRole → Option String
  | .toggled => o.toggled
  | .activeValue => o.activeValue
  | .inactiveValue => o.inactiveValue
  | .activeClass => o.activeClass
  | .inactiveClass => o.inactiveClass
  | .activeAttribute => o.activeAttribute
  | .inactiveAttribute => o.inactiveAttribute

/-- `$.extend(_this.attributes, options.attributes)` (source line 118):
every supplied key overwrites the shared attributes object in place;
omitted keys keep their current value. -/
def extendAttributes (a : AttrNames) (o : AttrOverrides) : AttrNames :=
  { toggled := o.toggled.getD a.toggled
    activeValue := o.activeValue.getD a.activeValue
    inactiveValue := o.inactiveValue.getD a.inactiveValue
    activeClass := o.activeClass.getD a.activeClass
    inactiveClass := o.inactiveClass.getD a.inactiveClass
    activeAttribute := o.activeAttribute.getD a.activeAttribute
    inactiveAttribute := o.inactiveAttribute.getD a.inactiveAttribute }

/-- The effect of one `init` call on the shared `InputToggle.attributes`
state (source lines 114-119): a call with a well-formed options object
merges it in, a call without one leaves the state alone. -/
def initAttributes (a : AttrNames) (options : Option AttrOverrides) : AttrNames :=
  match options with
  | some o => extendAttributes a o
  | none => a

/-! ## Concrete elements and option objects used in the theorems below -/

def zeroCritToggle : Toggle :=
  { attrs := [("data-input-toggle", "n"),
              ("data-input-toggle-active-value", "0"),
              ("data-input-toggle-active-class", "visible")],
    classes := [] }

def yesCritToggle : Toggle :=
  { attrs := [("data-input-toggle", "n"),
              ("data-input-toggle-active-value", "yes"),
              ("data-input-toggle-active-class", "visible")],
    classes := [] }

def noCritToggle : Toggle :=
  { attrs := [("data-input-toggle", "n"),
              ("data-input-toggle-inactive-value", "no"),
              ("data-input-toggle-active-class", "visible")],
    classes := [] }

/-- Per-input contribution, following the spec wording: a checked
checkbox or radio contributes its value, an unchecked one nothing, a
multi-valued input each selected value, any other input its value. -/
def specContribution : Input → List String
  | .check v c => if c then [v] else []
  | .multi sel => sel
  | .other v => [v]

def customOverride : AttrOverrides := { toggled := some "x-toggle" }

def laterOverride : AttrOverrides := { activeValue := some "x-active" }

def eqChainToggle : Toggle :=
  { attrs := [("data-input-toggle-active-attribute", "data-x=1=2")], classes := [] }

def presenceOnlyToggle : Toggle :=
  { attrs := [("data-input-toggle", "n"),
              ("data-input-toggle-active-value", "1"),
              ("data-input-toggle-active-attribute", "disabled")],
    classes := [] }

def valuedAttrToggle : Toggle :=
  { attrs := [("data-input-toggle", "n"),
              ("data-input-toggle-active-value", "1"),
              ("data-input-toggle-active-attribute", "checked=checked")],
    classes := [] }

def noCriteriaToggle : Toggle :=
  { attrs := [("data-input-toggle-active-class", "visible")], classes := ["visible"] }

def bothCritToggle : Toggle :=
  { attrs := [("data-input-toggle", "n"),
              ("data-input-toggle-active-value", "1"),
              ("data-input-toggle-inactive-value", "2"),
              ("data-input-toggle-active-class", "x")],
    classes := [] }

def invalidToggle : Toggle :=
  { attrs := [("data-input-toggle", "n"), ("data-input-toggle-active-class", "x")],
    classes := [] }

def staleClassToggle : Toggle :=
  { attrs := [("data-input-toggle-active-class", "visible")], classes := ["visible"] }

def roundTripToggle : Toggle :=
  { attrs := [("data-input-toggle-active-class", "visible"),
              ("data-input-toggle-active-attribute", "checked=checked"),
              ("data-input-toggle-inactive-attribute", "aria-x=off"),
              ("aria-x", "off")],
    classes := ["base"] }

/-! ## Theorems -/

theorem filterKeep_pos (l V : List String) :
    ((jqFilterKeep l V).length > 0) ↔ ∃ s ∈ l, s ∈ V := by
  simp [jqFilterKeep, List.length_pos, List.filter_eq_nil_iff]

theorem hasInputValues_eq (V : List String) (c : JSVal) (h : c ≠ JSVal.nullv) :
    hasInputValues V c = some (decide (∃ s ∈ critList c, s ∈ V)) := by
  cases c with
  | nullv => exact absurd rfl h
  | arr l =>
      simp only [hasInputValues, critList]
      congr 1
      exact decide_eq_decide.mpr (filterKeep_pos l V)
  | bool b =>
      simp only [hasInputValues, jsToString, critList]
      congr 1
      exact decide_eq_decide.mpr (filterKeep_pos _ V)
  | num s =>
      simp only [hasInputValues, jsToString, critList]
      congr 1
      exact decide_eq_decide.mpr (filterKeep_pos _ V)
  | str s =>
      simp only [hasInputValues, jsToString, critList]
      congr 1
      exact decide_eq_decide.mpr (filterKeep_pos _ V)

theorem jsTruthy_ne_nullv {v : JSVal} (h : jsTruthy v = true) : v ≠ JSVal.nullv := by
  intro hC; rw [hC] at h; simp [jsTruthy] at h

/-- Claim C2: the value comparator never errors for a scalar or array
criterion and returns true exactly when the candidate values and the
criterion set share at least one element, regardless of position or
multiplicity; in particular it returns false when either side is empty. -/
theorem hasInputValues_intersection (V : List String) (c : JSVal) (h : c ≠ JSVal.nullv) :
    ∃ b, hasInputValues V c = some b ∧ (b = true ↔ ∃ s ∈ critList c, s ∈ V) :=
  ⟨decide (∃ s ∈ critList c, s ∈ V), hasInputValues_eq V c h, by simp⟩

/-- Claim C2 witness: the comparator theorem applied to a concrete
array criterion sharing one element with the candidate values. -/
theorem hasInputValues_intersection_witness :
    (JSVal.arr ["1", "2"] ≠ JSVal.nullv) ∧
    ∃ b, hasInputValues ["2", "3"] (JSVal.arr ["1", "2"]) = some b ∧
      (b = true ↔ ∃ s ∈ critList (JSVal.arr ["1", "2"]), s ∈ ["2", "3"]) :=
  ⟨by decide, hasInputValues_intersection ["2", "3"] (JSVal.arr ["1", "2"]) (by decide)⟩

/-- Claim C1 (amended): for every target, when the decoded active-value
criterion is JavaScript-truthy, `determineActive` returns exactly whether
the collected values intersect the criterion set; when that criterion is
falsy and the decoded inactive-value criterion is truthy, it returns the
negation of the intersection test against the inactive criterion. -/
theorem determineActive_truthy_criteria (t : Toggle) (names : AttrNames) (V : List String) :
    (jsTruthy (getAttributeValue t names.activeValue) = true →
      determineActive t names V =
        some (decide (∃ s ∈ critList (getAttributeValue t names.activeValue), s ∈ V))) ∧
    (jsTruthy (getAttributeValue t names.activeValue) = false →
      jsTruthy (getAttributeValue t names.inactiveValue) = true →
      determineActive t names V =
        some (!decide (∃ s ∈ critList (getAttributeValue t names.inactiveValue), s ∈ V))) := by
  constructor
  · intro h
    simp only [determineActive, h, if_true]
    exact hasInputValues_eq V _ (jsTruthy_ne_nullv h)
  · intro h hi
    simp only [determineActive, h, hi, if_true, Bool.false_eq_true, if_false]
    rw [hasInputValues_eq V _ (jsTruthy_ne_nullv hi)]
    rfl

/-- Claim C1 counterexample: a valid target configured with active-value
"0" whose criterion set intersects the collected values, yet
`determineActive` resolves to neither true nor false, because the jQuery
data conversion turns the attribute string "0" into the falsy number 0. -/
theorem determineActive_zero_criterion_counterexample :
    validateToggle zeroCritToggle defaultAttributes = true ∧
    getAttr zeroCritToggle defaultAttributes.activeValue = some "0" ∧
    ("0" ∈ ["0"]) ∧
    determineActive zeroCritToggle defaultAttributes ["0"] = none := by
  refine ⟨by decide, by decide, by decide, by decide⟩

/-- Claim C1 witness: the amended theorem applied at one concrete
active-configured and one concrete inactive-configured target. -/
theorem determineActive_truthy_criteria_witness :
    (determineActive yesCritToggle defaultAttributes ["yes"] =
      some (decide (∃ s ∈ critList (getAttributeValue yesCritToggle defaultAttributes.activeValue),
        s ∈ ["yes"]))) ∧
    (determineActive noCritToggle defaultAttributes ["no"] =
      some (!decide (∃ s ∈ critList (getAttributeValue noCritToggle defaultAttributes.inactiveValue),
        s ∈ ["no"]))) :=
  ⟨(determineActive_truthy_criteria yesCritToggle defaultAttributes ["yes"]).1 (by decide),
   (determineActive_truthy_criteria noCritToggle defaultAttributes ["no"]).2 (by decide) (by decide)⟩

theorem getInputValues_aux (inputs : List Input) : ∀ acc : List String,
    inputs.foldl
      (fun acc i =>
        match i with
        | .check v c => if c then acc ++ [v] else acc
        | .multi sel => acc ++ sel
        | .other v => acc ++ [v]) acc
    = acc ++ (inputs.map specContribution).flatten := by
  induction inputs with
  | nil => intro acc; simp
  | cons i rest ih =>
      intro acc
      cases i with
      | check v c => cases c <;> simp [specContribution, ih]
      | multi sel => simp [specContribution, ih]
      | other v => simp [specContribution, ih]

/-- Claim C6: the collected value set is exactly the concatenation, in
document order, of each input's contribution: a checkbox or radio
contributes its value only when checked, a multi-valued input each
currently selected value, and any other input its single value
verbatim. -/
theorem getInputValues_collect_spec (inputs : List Input) :
    getInputValues inputs = (inputs.map specContribution).flatten := by
  simpa [getInputValues] using getInputValues_aux inputs []

/-- Claim C9: the per-input rebinding step of init replaces rather than
stacks: rebinding over an already-bound list gives the same listener list
as binding once, and exactly one change listener in the InputToggle
namespace remains afterwards. -/
theorem bindChange_replaces {α : Type} (bs : List (Binding α)) (h h2 : α) :
    bindChange (bindChange bs h2) h = bindChange bs h ∧
    (bindChange bs h).filter (fun b => b.event == "change" && b.ns == "InputToggle") =
      [{ event := "change", ns := "InputToggle", handler := h }] := by
  constructor
  · simp [bindChange, offNamespaced, onNamespaced, List.filter_append, List.filter_filter]
  · simp [bindChange, offNamespaced, onNamespaced, List.filter_append, List.filter_filter]

theorem get_extendAttributes (a : AttrNames) (o : AttrOverrides) (r : MarkerRole) :
    (extendAttributes a o).get r = (o.get r).getD (a.get r) := by
  cases r <;> rfl

theorem foldl_initAttributes_keeps (r : MarkerRole) (v : String) :
    ∀ (rest : List (Option AttrOverrides)) (s : AttrNames),
      s.get r = v →
      (∀ x ∈ rest, ∀ o2, x = some o2 → o2.get r = none) →
      (rest.foldl initAttributes s).get r = v := by
  intro rest
  induction rest with
  | nil => intro s hs _; simpa using hs
  | cons x xs ih =>
      intro s hs hrest
      simp only [List.foldl_cons]
      apply ih
      · cases x with
        | none => simpa [initAttributes] using hs
        | some o2 =>
            have h2 : o2.get r = none := hrest (some o2) (by simp) o2 rfl
            simp [initAttributes, get_extendAttributes, h2, hs]
      · intro y hy o2 ho2
        exact hrest y (by simp [hy]) o2 ho2

/-- Claim C10: marker-name overrides are merged into the shared
attributes state and persist process-wide: after an init call overriding
one marker role, any sequence of later init calls that do not override
that role — with or without an options object — still sees the
overridden name; the default is not restored. -/
theorem initAttributes_override_persists (a : AttrNames) (o : AttrOverrides)
    (r : MarkerRole) (v : String) (hov : o.get r = some v)
    (rest : List (Option AttrOverrides))
    (hrest : ∀ x ∈ rest, ∀ o2, x = some o2 → o2.get r = none) :
    (rest.foldl initAttributes (initAttributes a (some o))).get r = v := by
  apply foldl_initAttributes_keeps r v rest _ _ hrest
  simp [initAttributes, get_extendAttributes, hov]

/-- Claim C10 witness: the persistence theorem applied to a concrete
override followed by an option-less call and an unrelated override. -/
theorem initAttributes_override_persists_witness :
    ((([none, some laterOverride] : List (Option AttrOverrides)).foldl initAttributes
        (initAttributes defaultAttributes (some customOverride))).get MarkerRole.toggled
      = "x-toggle") :=
  initAttributes_override_persists defaultAttributes customOverride MarkerRole.toggled
    "x-toggle" (by decide) [none, some laterOverride] (by decide)

theorem splitCharAux_ne_nil (sep : Char) : ∀ cs : List Char, splitCharAux sep cs ≠ [] := by
  intro cs
  induction cs with
  | nil => simp [splitCharAux]
  | cons c rest ih =>
      cases h : splitCharAux sep rest with
      | nil => exact absurd h ih
      | cons r rs =>
          simp only [splitCharAux, h]
          by_cases hc : (c == sep) = true
          · simp [hc]
          · simp [hc]

theorem splitCharAux_no_sep (sep : Char) :
    ∀ cs : List Char, sep ∉ cs → splitCharAux sep cs = [cs] := by
  intro cs
  induction cs with
  | nil => intro _; rfl
  | cons c rest ih =>
      intro h
      have hc : ¬ (c == sep) = true := by
        simp only [beq_iff_eq]
        intro heq; exact h (by simp [heq])
      have hrest : sep ∉ rest := fun hm => h (List.mem_cons_of_mem _ hm)
      simp only [splitCharAux, ih hrest, if_neg hc]

theorem splitCharAux_append_sep (sep : Char) :
    ∀ a rest : List Char, sep ∉ a →
      splitCharAux sep (a ++ sep :: rest) = a :: splitCharAux sep rest := by
  intro a
  induction a with
  | nil =>
      intro rest _
      show splitCharAux sep (sep :: rest) = [] :: splitCharAux sep rest
      cases h : splitCharAux sep rest with
      | nil => exact absurd h (splitCharAux_ne_nil sep rest)
      | cons r rs =>
          simp only [splitCharAux, h]
          simp
  | cons c a0 ih =>
      intro rest h
      have hc : ¬ (c == sep) = true := by
        simp only [beq_iff_eq]
        intro hsep; exact h (by simp [hsep])
      have ha0 : sep ∉ a0 := fun hm => h (List.mem_cons_of_mem _ hm)
      have step : splitCharAux sep (c :: (a0 ++ sep :: rest)) =
          match splitCharAux sep (a0 ++ sep :: rest) with
          | [] => [[]]
          | r :: rs => if c == sep then [] :: r :: rs else (c :: r) :: rs := rfl
      rw [List.cons_append, step, ih rest ha0]
      simp [hc]

theorem mk_toList (s : String) : String.mk s.toList = s := rfl

theorem toList_append_eq (x y : String) : (x ++ y).toList = x.toList ++ y.toList := by
  simp [String.toList, String.data_append]

theorem jsSplit_two_segments (a b : String) (ha : '=' ∉ a.toList) :
    jsSplit (a ++ "=" ++ b) '=' = a :: jsSplit b '=' := by
  have : (a ++ "=" ++ b).toList = a.toList ++ '=' :: b.toList := by
    simp [toList_append_eq]
  simp only [jsSplit, this, splitCharAux_append_sep '=' a.toList b.toList ha, List.map_cons,
    mk_toList]

theorem jsSplit_no_sep (a : String) (ha : '=' ∉ a.toList) : jsSplit a '=' = [a] := by
  simp only [jsSplit, splitCharAux_no_sep '=' a.toList ha, List.map_cons, List.map_nil, mk_toList]

/-- Claim C3 (amended): the directive parser splits on every equals
sign and keeps only the first two segments: the attribute name is the
text before the first equals sign and the value is the segment strictly
between the first and second one (text after a second equals sign is
dropped); with no equals sign the whole string is the name and the value
is absent (empty). -/
theorem parseToggleAttribute_first_two_segments (t : Toggle) (marker : String)
    (a b c : String) (ha : '=' ∉ a.toList) (hb : '=' ∉ b.toList) :
    (getAttr t marker = some (a ++ "=" ++ b ++ "=" ++ c) →
        parseToggleAttribute t marker = { attrName := a, value := b }) ∧
    (getAttr t marker = some (a ++ "=" ++ b) →
        parseToggleAttribute t marker = { attrName := a, value := b }) ∧
    (getAttr t marker = some a →
        parseToggleAttribute t marker = { attrName := a, value := "" }) := by
  refine ⟨?_, ?_, ?_⟩
  · intro hget
    have hsplit : jsSplit (a ++ "=" ++ b ++ "=" ++ c) '=' = a :: b :: jsSplit c '=' := by
      have h1 : a ++ "=" ++ b ++ "=" ++ c = a ++ "=" ++ (b ++ "=" ++ c) := by
        simp [String.append_assoc]
      rw [h1, jsSplit_two_segments a (b ++ "=" ++ c) ha, jsSplit_two_segments b c hb]
    simp only [parseToggleAttribute, hget, hsplit]
    simp
  · intro hget
    have hsplit : jsSplit (a ++ "=" ++ b) '=' = a :: jsSplit b '=' :=
      jsSplit_two_segments a b ha
    rw [jsSplit_no_sep b hb] at hsplit
    simp only [parseToggleAttribute, hget, hsplit]
    simp
  · intro hget
    simp only [parseToggleAttribute, hget, jsSplit_no_sep a ha]
    simp

/-- Claim C3 counterexample: parsing the directive "data-x=1=2" yields
the value "1", not the claimed "1=2". -/
theorem parseToggleAttribute_counterexample :
    parseToggleAttribute eqChainToggle defaultAttributes.activeAttribute =
      { attrName := "data-x", value := "1" } ∧
    ({ attrName := "data-x", value := "1" } : ToggleAttr) ≠
      { attrName := "data-x", value := "1=2" } := by
  refine ⟨by decide, by decide⟩

/-- Claim C3 witness: the amended parser theorem applied at the
concrete directive "data-x=1=2". -/
theorem parseToggleAttribute_first_two_segments_witness :
    parseToggleAttribute eqChainToggle defaultAttributes.activeAttribute =
      { attrName := "data-x", value := "1" } :=
  (parseToggleAttribute_first_two_segments eqChainToggle defaultAttributes.activeAttribute
    "data-x" "1" "2" (by decide) (by decide)).1 (by decide)

/-- Claim C4 (code bug): at the failing input — a presence-only active
directive "disabled" with an active resolution — the source calls the
one-argument jQuery attr, which is a getter, so the attribute is never
written and the element is unchanged, while a directive with a value
("checked=checked") does assign its literal value. -/
theorem toggleAttribute_presence_only_not_set :
    (parseToggleAttribute presenceOnlyToggle defaultAttributes.activeAttribute =
      { attrName := "disabled", value := "" }) ∧
    toggleAttribute presenceOnlyToggle defaultAttributes (some true) = presenceOnlyToggle ∧
    getAttr (toggleAttribute presenceOnlyToggle defaultAttributes (some true)) "disabled" = none ∧
    getAttr (toggleAttribute valuedAttrToggle defaultAttributes (some true)) "checked" =
      some "checked" := by
  refine ⟨by decide, by decide, by decide, by decide⟩

/-- Claim C7 (amended): a target whose activation resolution is
indeterminate is not left unmodified: the update step applies exactly the
mutations of the inactive state, because undefined falls into the falsy
branch of both toggle functions. -/
theorem updateOne_indeterminate_as_inactive (t : Toggle) (names : AttrNames)
    (V : List String) (h : determineActive t names V = none) :
    updateOne t names V =
      toggleAttribute (toggleClass t names (some false)) names (some false) := by
  simp only [updateOne, h]
  rfl

/-- Claim C7 counterexample: a target with no value criteria and the
active class "visible" initially present is mutated by the update step:
the class is removed, contradicting the claimed no-op. -/
theorem updateOne_indeterminate_counterexample :
    determineActive noCriteriaToggle defaultAttributes [] = none ∧
    (updateOne noCriteriaToggle defaultAttributes []).classes = [] ∧
    noCriteriaToggle.classes = ["visible"] := by
  refine ⟨by decide, by decide, by decide⟩

/-- Claim C7 witness: the amended theorem applied at a concrete
criterion-less target. -/
theorem updateOne_indeterminate_as_inactive_witness :
    updateOne noCriteriaToggle defaultAttributes [] =
      toggleAttribute (toggleClass noCriteriaToggle defaultAttributes (some false))
        defaultAttributes (some false) :=
  updateOne_indeterminate_as_inactive noCriteriaToggle defaultAttributes [] (by decide)

theorem addToGroup_sources (gs : List (String × List Toggle)) (n : String) (tg : Toggle)
    (g : String × List Toggle) (hg : g ∈ addToGroup gs n tg) (u : Toggle) (hu : u ∈ g.2) :
    (∃ g0 ∈ gs, u ∈ g0.2) ∨ u = tg := by
  unfold addToGroup at hg
  by_cases hany : (gs.any fun g => g.1 == n) = true
  · rw [if_pos hany] at hg
    obtain ⟨g0, hg0, hmap⟩ := List.mem_map.mp hg
    by_cases he : (g0.1 == n) = true
    · rw [if_pos he] at hmap
      subst hmap
      rcases List.mem_append.mp hu with h1 | h2
      · exact Or.inl ⟨g0, hg0, h1⟩
      · simp at h2
        exact Or.inr h2
    · rw [if_neg he] at hmap
      subst hmap
      exact Or.inl ⟨g0, hg0, hu⟩
  · rw [if_neg hany] at hg
    rcases List.mem_append.mp hg with h1 | h2
    · exact Or.inl ⟨g, h1, hu⟩
    · simp at h2
      subst h2
      simp at hu
      exact Or.inr hu

theorem buildToggles_valid_aux (names : AttrNames) :
    ∀ (elems : List Toggle) (gs : List (String × List Toggle)),
      (∀ g ∈ gs, ∀ u ∈ g.2, validateToggle u names = true) →
      ∀ g ∈ elems.foldl
          (fun gs e =>
            if validateToggle e names then
              match getAttr e names.toggled with
              | some n => if n.length > 0 then addToGroup gs n e else gs
              | none => gs
            else gs) gs,
        ∀ u ∈ g.2, validateToggle u names = true := by
  intro elems
  induction elems with
  | nil => intro gs hinv; simpa using hinv
  | cons e rest ih =>
      intro gs hinv
      simp only [List.foldl_cons]
      apply ih
      split
      next hv =>
        split
        next n hn =>
          split
          next hlen =>
            intro g hg u hu
            rcases addToGroup_sources gs n e g hg u hu with ⟨g0, hg0, hu0⟩ | rfl
            · exact hinv g0 hg0 u hu0
            · exact hv
          next hlen => exact hinv
        next hn => exact hinv
      next hv => exact hinv

/-- Claim C5 (amended): a target is accepted as valid iff at least one
of the two value criteria is non-empty — both may be present at once —
and at least one of the four class or attribute directives is non-empty;
every element failing this test is silently excluded from the group
mapping built by init. -/
theorem validateToggle_filter :
    (∀ (t : Toggle) (names : AttrNames),
      validateToggle t names = true ↔
        ((nonEmptyAttr t names.activeValue = true ∨
          nonEmptyAttr t names.inactiveValue = true) ∧
         (nonEmptyAttr t names.activeClass = true ∨
          nonEmptyAttr t names.inactiveClass = true ∨
          nonEmptyAttr t names.activeAttribute = true ∨
          nonEmptyAttr t names.inactiveAttribute = true))) ∧
    (∀ (elems : List Toggle) (names : AttrNames) (t : Toggle),
      validateToggle t names = false →
      ∀ g ∈ buildToggles elems names, t ∉ g.2) := by
  constructor
  · intro t names
    simp [validateToggle, Bool.and_eq_true, Bool.or_eq_true, or_assoc]
  · intro elems names t hft g hg ht
    have hvalid := buildToggles_valid_aux names elems [] (by simp) g hg t ht
    rw [hft] at hvalid
    exact Bool.false_ne_true hvalid

/-- Claim C5 counterexample: a configuration carrying both an
active-value and an inactive-value criterion is accepted by the validator
and registered in the group mapping, contradicting the claimed
exactly-one rule. -/
theorem validateToggle_both_criteria_counterexample :
    nonEmptyAttr bothCritToggle defaultAttributes.activeValue = true ∧
    nonEmptyAttr bothCritToggle defaultAttributes.inactiveValue = true ∧
    validateToggle bothCritToggle defaultAttributes = true ∧
    buildToggles [bothCritToggle] defaultAttributes = [("n", [bothCritToggle])] := by
  refine ⟨by decide, by decide, by decide, by decide⟩

/-- Claim C5 witness: the exclusion part applied to a concrete invalid
element scanned alongside a valid one. -/
theorem validateToggle_filter_witness :
    invalidToggle ∉ [yesCritToggle] :=
  validateToggle_filter.2 [invalidToggle, yesCritToggle] defaultAttributes invalidToggle
    (by decide) ("n", [yesCritToggle]) (by decide)

theorem lookupAttr_setPair (l : List (String × String)) (x v n : String) :
    lookupAttr (setPair l x v) n = if n = x then some v else lookupAttr l n := by
  induction l with
  | nil =>
      show lookupAttr [(x, v)] n = _
      by_cases h : n = x
      · simp [lookupAttr, h]
      · have hxn : ¬ (x == n) = true := by
          simp only [beq_iff_eq]
          exact fun hc => h hc.symm
        simp [lookupAttr, h, hxn]
  | cons p ps ih =>
      by_cases hp : (p.1 == x) = true
      · simp only [setPair, if_pos hp]
        by_cases h : n = x
        · simp [lookupAttr, h]
        · have hxn : ¬ (x == n) = true := by
            simp only [beq_iff_eq]
            exact fun hc => h hc.symm
          have hpn : ¬ (p.1 == n) = true := by
            simp only [beq_iff_eq] at hp ⊢
            rw [hp]; exact fun hc => h hc.symm
          simp [lookupAttr, h, hxn, hpn]
      · simp only [setPair, if_neg hp]
        by_cases hpn : (p.1 == n) = true
        · have h : ¬ n = x := by
            simp only [beq_iff_eq] at hp hpn
            rw [← hpn]; exact fun hc => hp hc
          simp [lookupAttr, hpn, h]
        · simp only [lookupAttr, if_neg hpn, ih]

theorem lookupAttr_filterOut (l : List (String × String)) (x n : String) :
    lookupAttr (l.filter fun p => !(p.1 == x)) n =
      if n = x then none else lookupAttr l n := by
  induction l with
  | nil => by_cases h : n = x <;> simp [lookupAttr, h]
  | cons p ps ih =>
      by_cases hp : (p.1 == x) = true
      · have hstep : (p :: ps).filter (fun p => !(p.1 == x)) =
            ps.filter (fun p => !(p.1 == x)) := by
          simp [List.filter_cons, hp]
        rw [hstep, ih]
        by_cases h : n = x
        · simp [h]
        · have hpn : ¬ (p.1 == n) = true := by
            simp only [beq_iff_eq] at hp ⊢
            rw [hp]; exact fun hc => h hc.symm
          simp [lookupAttr, h, hpn]
      · have hstep : (p :: ps).filter (fun p => !(p.1 == x)) =
            p :: ps.filter (fun p => !(p.1 == x)) := by
          simp [List.filter_cons, hp]
        rw [hstep]
        by_cases hpn : (p.1 == n) = true
        · have h : ¬ n = x := by
            simp only [beq_iff_eq] at hp hpn
            rw [← hpn]; exact fun hc => hp hc
          simp [lookupAttr, hpn, h]
        · simp only [lookupAttr, if_neg hpn, ih]

theorem getAttr_setAttr (u : Toggle) (x v n : String) :
    getAttr (setAttr u x v) n = if n = x then some v else getAttr u n :=
  lookupAttr_setPair u.attrs x v n

theorem getAttr_removeAttr (u : Toggle) (x n : String) :
    getAttr (removeAttr u x) n = if n = x then none else getAttr u n :=
  lookupAttr_filterOut u.attrs x n

theorem toggleClass_attrs (t : Toggle) (names : AttrNames) (i : Option Bool) :
    (toggleClass t names i).attrs = t.attrs := by
  simp only [toggleClass]
  repeat' split
  all_goals rfl

theorem toggleAttribute_classes (t : Toggle) (names : AttrNames) (i : Option Bool) :
    (toggleAttribute t names i).classes = t.classes := by
  simp only [toggleAttribute]
  repeat' split
  all_goals simp [setAttr, removeAttr]

theorem getAttr_congr {u v : Toggle} (h : u.attrs = v.attrs) (n : String) :
    getAttr u n = getAttr v n := by
  show lookupAttr u.attrs n = lookupAttr v.attrs n
  rw [h]

theorem parseToggleAttribute_congr {u v : Toggle} (m : String)
    (h : getAttr u m = getAttr v m) :
    parseToggleAttribute u m = parseToggleAttribute v m := by
  unfold parseToggleAttribute
  rw [h]

theorem toggleAttribute_true_getAttr (u : Toggle) (names : AttrNames) (n : String) :
    getAttr (toggleAttribute u names (some true)) n =
      (if 0 < (parseToggleAttribute u names.inactiveAttribute).attrName.length ∧
            n = (parseToggleAttribute u names.inactiveAttribute).attrName then none
       else if 0 < (parseToggleAttribute u names.activeAttribute).attrName.length ∧
            0 < (parseToggleAttribute u names.activeAttribute).value.length ∧
            n = (parseToggleAttribute u names.activeAttribute).attrName then
          some (parseToggleAttribute u names.activeAttribute).value
       else getAttr u n) := by
  by_cases hI : 0 < (parseToggleAttribute u names.inactiveAttribute).attrName.length <;>
    by_cases hA : 0 < (parseToggleAttribute u names.activeAttribute).attrName.length <;>
    by_cases hAv : 0 < (parseToggleAttribute u names.activeAttribute).value.length <;>
    simp [toggleAttribute, hI, hA, hAv, getAttr_removeAttr, getAttr_setAttr]

theorem toggleAttribute_false_getAttr (u : Toggle) (names : AttrNames) (n : String) :
    getAttr (toggleAttribute u names (some false)) n =
      (if 0 < (parseToggleAttribute u names.inactiveAttribute).attrName.length ∧
            0 < (parseToggleAttribute u names.inactiveAttribute).value.length ∧
            n = (parseToggleAttribute u names.inactiveAttribute).attrName then
          some (parseToggleAttribute u names.inactiveAttribute).value
       else if 0 < (parseToggleAttribute u names.activeAttribute).attrName.length ∧
            n = (parseToggleAttribute u names.activeAttribute).attrName then none
       else getAttr u n) := by
  by_cases hI : 0 < (parseToggleAttribute u names.inactiveAttribute).attrName.length <;>
    by_cases hIv : 0 < (parseToggleAttribute u names.inactiveAttribute).value.length <;>
    by_cases hA : 0 < (parseToggleAttribute u names.activeAttribute).attrName.length <;>
    simp [toggleAttribute, hI, hIv, hA, getAttr_removeAttr, getAttr_setAttr]

theorem addClasses_cons (C : List String) (a : String) (A : List String) :
    addClasses C (a :: A) = addClasses (if C.contains a then C else C ++ [a]) A := rfl

theorem addClasses_decomp (A : List String) :
    ∀ C : List String, ∃ D, addClasses C A = C ++ D ∧ ∀ x ∈ D, x ∈ A := by
  induction A with
  | nil => intro C; exact ⟨[], by simp [addClasses], by simp⟩
  | cons a A0 ih =>
      intro C
      rw [addClasses_cons]
      by_cases h : (C.contains a) = true
      · obtain ⟨D, hD, hDA⟩ := ih C
        rw [if_pos h]
        exact ⟨D, hD, fun x hx => List.mem_cons_of_mem _ (hDA x hx)⟩
      · obtain ⟨D, hD, hDA⟩ := ih (C ++ [a])
        rw [if_neg h]
        refine ⟨a :: D, by simpa [List.append_assoc] using hD, ?_⟩
        intro x hx
        rcases List.mem_cons.mp hx with rfl | hx
        · exact List.mem_cons_self _ _
        · exact List.mem_cons_of_mem _ (hDA x hx)

theorem removeClasses_addClasses (C A : List String) (h : ∀ c ∈ C, c ∉ A) :
    removeClasses (addClasses C A) A = C := by
  obtain ⟨D, hD, hDA⟩ := addClasses_decomp A C
  rw [hD]
  unfold removeClasses
  rw [List.filter_append]
  have h1 : C.filter (fun c => !(A.contains c)) = C := by
    apply List.filter_eq_self.mpr
    intro c hc
    simpa using h c hc
  have h2 : D.filter (fun c => !(A.contains c)) = [] := by
    apply List.filter_eq_nil_iff.mpr
    intro c hc
    simpa using hDA c hc
  rw [h1, h2, List.append_nil]

theorem toggleClass_true_eq (t : Toggle) (names : AttrNames) (acs : String)
    (hac : getAttr t names.activeClass = some acs)
    (hic : getAttr t names.inactiveClass = none) :
    toggleClass t names (some true) =
      (if 0 < acs.length then
        { t with classes := addClasses t.classes (splitClasses acs) } else t) := by
  simp [toggleClass, hac, hic]

theorem toggleClass_false_eq (t : Toggle) (names : AttrNames) (acs : String)
    (hac : getAttr t names.activeClass = some acs)
    (hic : getAttr t names.inactiveClass = none) :
    toggleClass t names (some false) =
      (if 0 < acs.length then
        { t with classes := removeClasses t.classes (splitClasses acs) } else t) := by
  simp [toggleClass, hac, hic]

/-- Claim C8 (amended): for a target with an active class, no inactive
class, and any attribute directives, applying the mutation plan for the
active state and then for the inactive state restores the initial class
list and attribute map — provided the element initially bears none of
the active class names, does not carry the active directive's attribute,
the directive names are distinct from the four marker attributes, and
the inactive directive, when configured, has a value that the element
already carries. -/
theorem applyPlan_roundTrip (t : Toggle) (names : AttrNames) (acs : String)
    (hac : getAttr t names.activeClass = some acs)
    (hlen : 0 < acs.length)
    (hic : getAttr t names.inactiveClass = none)
    (hcl : ∀ c ∈ t.classes, c ∉ splitClasses acs)
    (hmarkA : 0 < (parseToggleAttribute t names.activeAttribute).attrName.length →
      getAttr t (parseToggleAttribute t names.activeAttribute).attrName = none ∧
      (parseToggleAttribute t names.activeAttribute).attrName ≠ names.activeClass ∧
      (parseToggleAttribute t names.activeAttribute).attrName ≠ names.inactiveClass ∧
      (parseToggleAttribute t names.activeAttribute).attrName ≠ names.activeAttribute ∧
      (parseToggleAttribute t names.activeAttribute).attrName ≠ names.inactiveAttribute)
    (hmarkI : 0 < (parseToggleAttribute t names.inactiveAttribute).attrName.length →
      0 < (parseToggleAttribute t names.inactiveAttribute).value.length ∧
      getAttr t (parseToggleAttribute t names.inactiveAttribute).attrName =
        some (parseToggleAttribute t names.inactiveAttribute).value ∧
      (parseToggleAttribute t names.inactiveAttribute).attrName ≠ names.activeClass ∧
      (parseToggleAttribute t names.inactiveAttribute).attrName ≠ names.inactiveClass ∧
      (parseToggleAttribute t names.inactiveAttribute).attrName ≠ names.activeAttribute ∧
      (parseToggleAttribute t names.inactiveAttribute).attrName ≠ names.inactiveAttribute) :
    (applyPlan (applyPlan t names (some true)) names (some false)).classes = t.classes ∧
    ∀ n, getAttr (applyPlan (applyPlan t names (some true)) names (some false)) n =
      getAttr t n := by
  simp only [applyPlan]
  set T1 := toggleClass t names (some true) with hT1def
  have hT1a : T1.attrs = t.attrs := toggleClass_attrs t names _
  have hT1c : T1.classes = addClasses t.classes (splitClasses acs) := by
    rw [hT1def, toggleClass_true_eq t names acs hac hic, if_pos hlen]
  have hT1get : ∀ n, getAttr T1 n = getAttr t n := fun n => getAttr_congr hT1a n
  have hT1parseA :
      parseToggleAttribute T1 names.activeAttribute =
        parseToggleAttribute t names.activeAttribute :=
    parseToggleAttribute_congr _ (hT1get _)
  have hT1parseI :
      parseToggleAttribute T1 names.inactiveAttribute =
        parseToggleAttribute t names.inactiveAttribute :=
    parseToggleAttribute_congr _ (hT1get _)
  set T2 := toggleAttribute T1 names (some true) with hT2def
  have hT2get : ∀ n, getAttr T2 n =
      (if 0 < (parseToggleAttribute t names.inactiveAttribute).attrName.length ∧
            n = (parseToggleAttribute t names.inactiveAttribute).attrName then none
       else if 0 < (parseToggleAttribute t names.activeAttribute).attrName.length ∧
            0 < (parseToggleAttribute t names.activeAttribute).value.length ∧
            n = (parseToggleAttribute t names.activeAttribute).attrName then
          some (parseToggleAttribute t names.activeAttribute).value
       else getAttr t n) := by
    intro n
    rw [hT2def, toggleAttribute_true_getAttr, hT1parseA, hT1parseI, hT1get n]
  have hT2c : T2.classes = addClasses t.classes (splitClasses acs) := by
    rw [hT2def, toggleAttribute_classes, hT1c]
  have hT2marker : ∀ m,
      (0 < (parseToggleAttribute t names.inactiveAttribute).attrName.length →
        (parseToggleAttribute t names.inactiveAttribute).attrName ≠ m) →
      (0 < (parseToggleAttribute t names.activeAttribute).attrName.length →
        (parseToggleAttribute t names.activeAttribute).attrName ≠ m) →
      getAttr T2 m = getAttr t m := by
    intro m hIm hAm
    rw [hT2get m, if_neg, if_neg]
    · rintro ⟨h1, _, h3⟩
      exact hAm h1 h3.symm
    · rintro ⟨h1, h2⟩
      exact hIm h1 h2.symm
  have hT2ac : getAttr T2 names.activeClass = some acs := by
    rw [hT2marker names.activeClass (fun h => (hmarkI h).2.2.1) (fun h => (hmarkA h).2.1)]
    exact hac
  have hT2ic : getAttr T2 names.inactiveClass = none := by
    rw [hT2marker names.inactiveClass (fun h => (hmarkI h).2.2.2.1)
      (fun h => (hmarkA h).2.2.1)]
    exact hic
  have hT2aa : getAttr T2 names.activeAttribute = getAttr t names.activeAttribute :=
    hT2marker names.activeAttribute (fun h => (hmarkI h).2.2.2.2.1)
      (fun h => (hmarkA h).2.2.2.1)
  have hT2ia : getAttr T2 names.inactiveAttribute = getAttr t names.inactiveAttribute :=
    hT2marker names.inactiveAttribute (fun h => (hmarkI h).2.2.2.2.2)
      (fun h => (hmarkA h).2.2.2.2)
  set T3 := toggleClass T2 names (some false) with hT3def
  have hT3a : T3.attrs = T2.attrs := toggleClass_attrs T2 names _
  have hT3c : T3.classes = t.classes := by
    rw [hT3def, toggleClass_false_eq T2 names acs hT2ac hT2ic, if_pos hlen]
    show removeClasses T2.classes (splitClasses acs) = t.classes
    rw [hT2c]
    exact removeClasses_addClasses t.classes (splitClasses acs) hcl
  have hT3get : ∀ n, getAttr T3 n = getAttr T2 n := fun n => getAttr_congr hT3a n
  have hT3parseA :
      parseToggleAttribute T3 names.activeAttribute =
        parseToggleAttribute t names.activeAttribute := by
    rw [parseToggleAttribute_congr names.activeAttribute (hT3get names.activeAttribute),
      parseToggleAttribute_congr names.activeAttribute hT2aa]
  have hT3parseI :
      parseToggleAttribute T3 names.inactiveAttribute =
        parseToggleAttribute t names.inactiveAttribute := by
    rw [parseToggleAttribute_congr names.inactiveAttribute (hT3get names.inactiveAttribute),
      parseToggleAttribute_congr names.inactiveAttribute hT2ia]
  constructor
  · rw [toggleAttribute_classes, hT3c]
  · intro n
    rw [toggleAttribute_false_getAttr, hT3parseA, hT3parseI, hT3get n, hT2get n]
    by_cases h1 : 0 < (parseToggleAttribute t names.inactiveAttribute).attrName.length ∧
        0 < (parseToggleAttribute t names.inactiveAttribute).value.length ∧
        n = (parseToggleAttribute t names.inactiveAttribute).attrName
    · rw [if_pos h1]
      obtain ⟨hIl, _, hn⟩ := h1
      rw [hn]
      exact ((hmarkI hIl).2.1).symm
    · rw [if_neg h1]
      by_cases h2 : 0 < (parseToggleAttribute t names.activeAttribute).attrName.length ∧
          n = (parseToggleAttribute t names.activeAttribute).attrName
      · rw [if_pos h2]
        obtain ⟨hAl, hn⟩ := h2
        rw [hn]
        exact ((hmarkA hAl).1).symm
      · rw [if_neg h2, if_neg, if_neg]
        · rintro ⟨hAl, hAvl, hn⟩
          exact h2 ⟨hAl, hn⟩
        · rintro ⟨hIl, hn⟩
          exact h1 ⟨hIl, (hmarkI hIl).1, hn⟩

/-- Claim C8 counterexample: an element that already bears the active
class "visible" loses it over the round trip, so the pre-active state is
not restored unconditionally. -/
theorem applyPlan_roundTrip_counterexample :
    (applyPlan (applyPlan staleClassToggle defaultAttributes (some true)) defaultAttributes
        (some false)).classes = [] ∧
    staleClassToggle.classes = ["visible"] := by
  refine ⟨by decide, by decide⟩

/-- Claim C8 witness: the round-trip theorem applied at a concrete
element with an active class and both attribute directives. -/
theorem applyPlan_roundTrip_witness :
    (applyPlan (applyPlan roundTripToggle defaultAttributes (some true)) defaultAttributes
        (some false)).classes = roundTripToggle.classes ∧
    getAttr (applyPlan (applyPlan roundTripToggle defaultAttributes (some true))
        defaultAttributes (some false)) "checked" = getAttr roundTripToggle "checked" :=
  ⟨(applyPlan_roundTrip roundTripToggle defaultAttributes "visible" (by decide) (by decide)
      (by decide) (by decide) (by decide) (by decide)).1,
   (applyPlan_roundTrip roundTripToggle defaultAttributes "visible" (by decide) (by decide)
      (by decide) (by decide) (by decide) (by decide)).2 "checked"⟩

end InputToggle
